import Mathlib

/-!
Verification of the acquisition orchestrator in `song_downloader.py`.

The source program shells out to external download backends, scrapes web
pages and writes files.  The embedding below models every external effect
as an explicit environment value supplied to the translated function:

* a `ProcTrace` describes what the spawned primary-backend process does
  (the lines it emits, how long each blocking `readline` takes, its exit
  code), plus an optional supervisor-side exception injected into the
  supervision loop;
* a `MetaEnv` describes the results of the secondary backend's
  metadata-only search call, of the audio download command and of the
  cover-art fetch;
* issued external commands are recorded in a `Cmd` list so that ordering
  properties ("metadata before audio") can be stated.

Machine integers play no role here; process exit codes are `Int`,
durations are `Nat` seconds.
-/

/-- Python's substring test `needle in hay` (`True` iff `needle` occurs
contiguously in `hay`). -/
def containsSub (needle hay : String) : Bool :=
  hay.data.tails.any (fun t => needle.data.isPrefixOf t)

/-- Python's `str.lower()`, character by character. -/
def toLowerStr (s : String) : String :=
  ⟨s.data.map Char.toLower⟩

/-- Python's `str.strip()`: whitespace removed from both ends. -/
def stripStr (s : String) : String :=
  ⟨((s.data.dropWhile Char.isWhitespace).reverse.dropWhile
      Char.isWhitespace).reverse⟩

/-- The rate-limit heuristic of `download_from_spotify_url` (line 144):
`"rate" in line.lower() and "limit" in line.lower()`. -/
def isRateLimit (line : String) : Bool :=
  containsSub "rate" (toLowerStr line) && containsSub "limit" (toLowerStr line)

/-- Character class of the regex `[<>:"/\\|?*]` at line 303. -/
def illegalChar (c : Char) : Bool :=
  c = '<' || c = '>' || c = ':' || c = '"' || c = '/' || c = '\\' ||
  c = '|' || c = '?' || c = '*'

/-- `re.sub(r'[<>:"/\\|?*]', '_', s)` (line 303): every character in the
class is replaced by an underscore, all other characters are kept. -/
def sanitize (s : String) : String :=
  ⟨s.data.map (fun c => if illegalChar c then '_' else c)⟩

/-- One thumbnail candidate from the backend's `thumbnails` array; every
field may be absent (`dict.get` semantics). -/
structure ThumbCand where
  url : Option String
  width : Option Nat
  height : Option Nat
deriving Repr, DecidableEq

/-- The sort key of line 295: `x.get("height", 0) * x.get("width", 0)` —
missing dimensions count as zero. -/
def area (c : ThumbCand) : Nat :=
  c.height.getD 0 * c.width.getD 0

/-- One step of Python's `max(..., key=area)`: the running maximum is
replaced only when the new candidate's key is strictly greater, so the
first candidate of maximal area wins. -/
def pickMax (b t : ThumbCand) : ThumbCand :=
  if area b < area t then t else b

/-- `max(metadata["thumbnails"], key=...)` (line 295) on the non-empty
list `t :: ts`. -/
def bestThumb (t : ThumbCand) (ts : List ThumbCand) : ThumbCand :=
  ts.foldl pickMax t

lemma bestThumb_cons (t s : ThumbCand) (ts : List ThumbCand) :
    bestThumb t (s :: ts) = bestThumb (pickMax t s) ts := rfl

/-- The running maximum never decreases. -/
lemma area_le_bestThumb (ts : List ThumbCand) : ∀ t : ThumbCand,
    area t ≤ area (bestThumb t ts) := by
  induction ts with
  | nil => intro t; exact le_rfl
  | cons s rest ih =>
    intro t
    rw [bestThumb_cons]
    refine le_trans ?_ (ih (pickMax t s))
    by_cases h : area t < area s
    · simp only [pickMax, if_pos h]
      exact Nat.le_of_lt h
    · simp only [pickMax, if_neg h]
      exact le_rfl

/-- `bestThumb` returns an element of the list that has maximal area and
is the first of that area: everything before it is strictly smaller,
everything after it is no larger. -/
lemma bestThumb_first_argmax (ts : List ThumbCand) : ∀ t : ThumbCand,
    ∃ l1 l2, t :: ts = l1 ++ bestThumb t ts :: l2 ∧
      (∀ x ∈ l1, area x < area (bestThumb t ts)) ∧
      (∀ x ∈ l2, area x ≤ area (bestThumb t ts)) := by
  induction ts with
  | nil =>
    intro t
    exact ⟨[], [], rfl, by simp, by simp⟩
  | cons s rest ih =>
    intro t
    rw [bestThumb_cons]
    by_cases h : area t < area s
    · have hp : pickMax t s = s := by simp [pickMax, h]
      rw [hp]
      obtain ⟨l1, l2, heq, hlt, hle⟩ := ih s
      refine ⟨t :: l1, l2, ?_, ?_, hle⟩
      · rw [List.cons_append, ← heq]
      · intro x hx
        rcases List.mem_cons.mp hx with hx | hx
        · subst hx
          exact lt_of_lt_of_le h (area_le_bestThumb rest s)
        · exact hlt x hx
    · have hp : pickMax t s = t := by simp [pickMax, h]
      rw [hp]
      obtain ⟨l1, l2, heq, hlt, hle⟩ := ih t
      cases l1 with
      | nil =>
        have h1 : t = bestThumb t rest := by
          have := heq
          simp only [List.nil_append] at this
          exact (List.cons_eq_cons.mp this).1
        have h2 : rest = l2 := by
          have := heq
          simp only [List.nil_append] at this
          exact (List.cons_eq_cons.mp this).2
        refine ⟨[], s :: l2, ?_, by simp, ?_⟩
        · rw [List.nil_append, ← h1, ← h2]
        · intro x hx
          rcases List.mem_cons.mp hx with hx | hx
          · subst hx
            rw [← h1]
            exact Nat.le_of_not_lt h
          · exact hle x hx
      | cons b l1t =>
        have h1 : t = b := by
          have := heq
          simp only [List.cons_append] at this
          exact (List.cons_eq_cons.mp this).1
        have h2 : rest = l1t ++ bestThumb t rest :: l2 := by
          have := heq
          simp only [List.cons_append] at this
          exact (List.cons_eq_cons.mp this).2
        refine ⟨t :: s :: l1t, l2, ?_, ?_, hle⟩
        · rw [List.cons_append, List.cons_append, ← h2]
        · intro x hx
          have hb : area t < area (bestThumb t rest) := by
            have := hlt b (by simp)
            rwa [← h1] at this
          rcases List.mem_cons.mp hx with hx | hx
          · subst hx; exact hb
          · rcases List.mem_cons.mp hx with hx | hx
            · subst hx
              exact lt_of_le_of_lt (Nat.le_of_not_lt h) hb
            · exact hlt x (by simp [hx])

/-- External commands issued by the program, recorded in order.
`spotdl` is the primary backend invocation (lines 104-110), `metaSearch`
the secondary backend's metadata-only call (lines 268-272), `audioSearch`
the one-shot search download of `download_song` (lines 66-76),
`audioFetch` the audio download of `download_song_with_metadata`
(lines 307-316) and `coverFetch` the cover-art retrieval (line 323). -/
inductive Cmd where
  | spotdl (url : String) (output_dir : String)
  | metaSearch (query : String)
  | audioSearch (query : String) (output_template : String)
  | audioFetch (url : String) (output_template : String)
  | coverFetch (url : String) (path : String)
deriving Repr, DecidableEq

def isSpotdlCmd : Cmd → Bool
  | Cmd.spotdl _ _ => true
  | _ => false

def isMetaCmd : Cmd → Bool
  | Cmd.metaSearch _ => true
  | _ => false

def isAudioCmd : Cmd → Bool
  | Cmd.audioSearch _ _ => true
  | Cmd.audioFetch _ _ => true
  | _ => false

/-- True iff, whenever some audio download command occurs in the list, a
metadata-only search command occurs strictly before the first one. -/
def metadataResolvedFirst (cmds : List Cmd) : Bool :=
  (cmds.takeWhile (fun c => !isAudioCmd c)).any isMetaCmd || !(cmds.any isAudioCmd)

/-- The JSON record parsed from the metadata-only search call
(`json.loads(result.stdout)`, line 280); each field may be absent, as
with Python's `dict.get`. -/
structure SearchInfo where
  title : Option String
  artist : Option String
  uploader : Option String
  album : Option String
  duration : Option Nat
  webpage_url : Option String
  thumbnail : Option String
  thumbnails : List ThumbCand
deriving Repr, DecidableEq

/-- The metadata dictionary assembled by `download_song_with_metadata`
(lines 282-290 with the updates of lines 296, 324 and 329). -/
structure Metadata where
  title : String
  artist : String
  album : String
  duration : Nat
  youtube_url : String
  thumbnail_url : String
  thumbnails : List ThumbCand
  cover_path : Option String
  file_path : String
deriving Repr, DecidableEq

/-- Environment of one `download_song_with_metadata` run: results of its
external calls.  `downloadExit` and `audioFileProduced` describe the
audio download command of line 318 — the source discards the returned
`CompletedProcess`, so the translated function ignores both fields,
exactly as the code does. -/
structure MetaEnv where
  searchExit : Int
  searchJson : Option SearchInfo
  downloadExit : Int
  audioFileProduced : Bool
  coverFetchOk : Bool
deriving Repr, DecidableEq

/-- `info.get("artist") or info.get("uploader", "Unknown")` (line 284):
a missing or empty (falsy) artist falls back to the uploader. -/
def resolvedArtist (info : SearchInfo) : String :=
  match info.artist with
  | some a => if a = "" then info.uploader.getD "Unknown" else a
  | none => info.uploader.getD "Unknown"

/-- `download_song_with_metadata(query, output_dir)` (lines 251-339).
Returns the Python return value (`None` on any failure path, the
metadata dict otherwise) together with the list of issued external
commands.  Mirrored failure paths: nonzero search exit (line 276),
`json.JSONDecodeError` (line 334, modelled as `searchJson = none`), and
the `KeyError` raised by `info["webpage_url"]` at line 308 when the key
is absent, caught by the generic handler of line 337. -/
def download_song_with_metadata (query output_dir : String) (env : MetaEnv) :
    Option Metadata × List Cmd :=
  let info_cmd := Cmd.metaSearch query
  if env.searchExit ≠ 0 then (none, [info_cmd])
  else
    match env.searchJson with
    | none => (none, [info_cmd])
    | some info =>
      let title := info.title.getD "Unknown"
      let artist := resolvedArtist info
      let album := info.album.getD ""
      let duration := info.duration.getD 0
      let youtube_url := info.webpage_url.getD ""
      let thumbnail_url :=
        match info.thumbnails with
        | [] => info.thumbnail.getD ""
        | t :: ts => (bestThumb t ts).url.getD (info.thumbnail.getD "")
      match info.webpage_url with
      | none => (none, [info_cmd])
      | some wurl =>
        let safe_filename := sanitize (artist ++ " - " ++ title)
        let output_path := output_dir ++ "/" ++ safe_filename ++ ".mp3"
        let cover_path := output_dir ++ "/" ++ safe_filename ++ ".jpg"
        let download_cmd := Cmd.audioFetch wurl (output_path.replace ".mp3" ".%(ext)s")
        let coverCmds :=
          if thumbnail_url ≠ "" then [Cmd.coverFetch thumbnail_url cover_path] else []
        let coverSaved :=
          if thumbnail_url ≠ "" then
            (if env.coverFetchOk then some cover_path else none)
          else none
        (some { title := title, artist := artist, album := album,
                duration := duration, youtube_url := youtube_url,
                thumbnail_url := thumbnail_url, thumbnails := info.thumbnails,
                cover_path := coverSaved, file_path := output_path },
         [info_cmd, download_cmd] ++ coverCmds)

/-- Environment of one `download_song` run: exit code of the single
`yt-dlp` call and whether `subprocess.run` itself raised. -/
structure DsEnv where
  runExit : Int
  runRaised : Bool
deriving Repr, DecidableEq

/-- `download_song(query, output_dir)` (lines 51-90): issues one search
download command and reports `True` exactly on exit code 0. -/
def download_song (query output_dir : String) (env : DsEnv) : Bool × List Cmd :=
  let output_template := output_dir ++ "/%(artist)s - %(title)s.%(ext)s"
  let cmd := Cmd.audioSearch query output_template
  if env.runRaised then (false, [cmd])
  else (decide (env.runExit = 0), [cmd])

/-- Request classification of `main` (line 366): a query containing the
substring `spotify.com` goes to the primary (spotdl) path, everything
else directly to `download_song`. -/
inductive Route where
  | spotifyUrl
  | search
deriving Repr, DecidableEq

def classifyQuery (query : String) : Route :=
  if containsSub "spotify.com" query then Route.spotifyUrl else Route.search

/-- One observable step of the spawned primary-backend process, as seen
by the supervision loop of lines 127-148.  `line dt s` means the blocking
`process.stdout.readline()` returns the line `s` after `dt` seconds;
`exc dt` means a supervisor-side exception is raised inside the loop
body after `dt` seconds (landing in the handler of line 174). -/
inductive Ev where
  | line (dt : Nat) (s : String)
  | exc (dt : Nat)
deriving Repr, DecidableEq

def evDt : Ev → Nat
  | Ev.line dt _ => dt
  | Ev.exc dt => dt

/-- Behaviour of one spawned process: the events delivered to the loop,
then — if the loop is still reading — a final `readline` returning EOF
after `exitDt` seconds with the process exited with `exitCode`. -/
structure ProcTrace where
  events : List Ev
  exitDt : Nat
  exitCode : Int
deriving Repr, DecidableEq

/-- How the supervision loop of lines 127-148 ended. -/
inductive ExitKind where
  | timedOut
  | rateLimited
  | excRaised
  | naturalExit (code : Int)
deriving Repr, DecidableEq

/-- State when control leaves the `while True` loop: exit kind, elapsed
wall-clock seconds, the accumulated (stripped) output lines, and whether
`process.kill()` was called. -/
structure LoopResult where
  exit : ExitKind
  elapsed : Nat
  lines : List String
  killed : Bool
deriving Repr, DecidableEq

/-- The supervision loop (lines 127-148).  Each iteration first compares
elapsed time with the budget (`elapsed > timeout` → kill and break),
then performs the blocking `readline`; a returned line is stripped,
accumulated and tested with `isRateLimit` (match → kill and break);
EOF with the process exited breaks out naturally.  The elapsed clock
only advances inside `readline`, faithfully to the fact that the
timeout check cannot run while `readline` blocks. -/
def runLoop (timeout : Nat) (tr : ProcTrace) :
    Nat → List String → List Ev → LoopResult
  | elapsed, lines, [] =>
    if timeout < elapsed then ⟨ExitKind.timedOut, elapsed, lines, true⟩
    else ⟨ExitKind.naturalExit tr.exitCode, elapsed + tr.exitDt, lines, false⟩
  | elapsed, lines, Ev.line dt s :: rest =>
    if timeout < elapsed then ⟨ExitKind.timedOut, elapsed, lines, true⟩
    else
      let stripped := stripStr s
      let lines1 := lines ++ [stripped]
      if isRateLimit stripped then ⟨ExitKind.rateLimited, elapsed + dt, lines1, true⟩
      else runLoop timeout tr (elapsed + dt) lines1 rest
  | elapsed, lines, Ev.exc dt :: _ =>
    if timeout < elapsed then ⟨ExitKind.timedOut, elapsed, lines, true⟩
    else ⟨ExitKind.excRaised, elapsed + dt, lines, false⟩

/-- Environment of the rate-limit fallback: the page-title scrape result
of `extract_spotify_track_name` (lines 180-225, `none` when no pattern
matches or the fetch fails) and the environment of the fallback
`download_song_with_metadata` run. -/
structure FallbackEnv where
  scrapedTitle : Option String
  metaEnv : MetaEnv
deriving Repr, DecidableEq

/-- The value `download_from_spotify_url` actually returns: a Python
bool on the ordinary paths, the fallback pipeline's dict-or-None when a
rate limit triggered the fallback. -/
inductive PyResult where
  | bool (b : Bool)
  | meta (m : Option Metadata)
deriving Repr, DecidableEq

def timeoutMsg (e : Nat) : String :=
  "TIMEOUT after " ++ toString e ++ "s! Killed process."

def exitCodeMsg (c : Int) : String :=
  "spotdl exited with code " ++ toString c

def fullOutputMsg (lines : List String) : String :=
  "Full output:\n" ++ String.intercalate "\n" lines

def exceptionMsg (e : Nat) : String :=
  "Exception after " ++ toString e ++ "s"

def noFallbackMsg : String := "Could not extract track name for fallback"

/-- Observable outcome of one `download_from_spotify_url` call. -/
structure RunOutcome where
  result : PyResult
  killed : Bool
  exitedNaturally : Bool
  lines : List String
  elapsed : Nat
  diagnostics : List String
  cmds : List Cmd
  fallbackRan : Bool
deriving Repr, DecidableEq

/-- `download_from_spotify_url(spotify_url, output_dir, timeout)`
(lines 92-177).  After the supervision loop: a supervisor-side exception
reaches the handler of line 174 and returns `False` without touching the
process; otherwise `returncode = process.poll() or process.wait()` is
the natural exit code, or the kill status (modelled as -9) when the
process was killed; a detected rate limit routes to the fallback
(scraped title → one `download_song_with_metadata` run whose value is
returned as-is, no title → `False`); otherwise code 0 returns `True`
and any other code logs the captured output and returns `False`. -/
def download_from_spotify_url (spotify_url output_dir : String) (timeout : Nat)
    (tr : ProcTrace) (fb : FallbackEnv) : RunOutcome :=
  let primary := Cmd.spotdl spotify_url output_dir
  let lr := runLoop timeout tr 0 [] tr.events
  let exitedNat : Bool :=
    match lr.exit with
    | ExitKind.naturalExit _ => true
    | _ => false
  if lr.exit = ExitKind.excRaised then
    { result := PyResult.bool false, killed := lr.killed, exitedNaturally := false,
      lines := lr.lines, elapsed := lr.elapsed,
      diagnostics := [exceptionMsg lr.elapsed],
      cmds := [primary], fallbackRan := false }
  else
    let returncode : Int :=
      match lr.exit with
      | ExitKind.naturalExit c => c
      | _ => -9
    if lr.exit = ExitKind.rateLimited then
      match fb.scrapedTitle with
      | some track_name =>
        { result := PyResult.meta (download_song_with_metadata track_name output_dir fb.metaEnv).1,
          killed := lr.killed, exitedNaturally := exitedNat,
          lines := lr.lines, elapsed := lr.elapsed, diagnostics := [],
          cmds := primary :: (download_song_with_metadata track_name output_dir fb.metaEnv).2,
          fallbackRan := true }
      | none =>
        { result := PyResult.bool false, killed := lr.killed, exitedNaturally := exitedNat,
          lines := lr.lines, elapsed := lr.elapsed,
          diagnostics := [noFallbackMsg],
          cmds := [primary], fallbackRan := false }
    else if returncode = 0 then
      { result := PyResult.bool true, killed := lr.killed, exitedNaturally := exitedNat,
        lines := lr.lines, elapsed := lr.elapsed, diagnostics := [],
        cmds := [primary], fallbackRan := false }
    else
      { result := PyResult.bool false, killed := lr.killed, exitedNaturally := exitedNat,
        lines := lr.lines, elapsed := lr.elapsed,
        diagnostics :=
          (match lr.exit with
            | ExitKind.timedOut => [timeoutMsg lr.elapsed]
            | _ => []) ++ [exitCodeMsg returncode, fullOutputMsg lr.lines],
        cmds := [primary], fallbackRan := false }

lemma dfsu_elapsed (u d : String) (tmo : Nat) (tr : ProcTrace) (fb : FallbackEnv) :
    (download_from_spotify_url u d tmo tr fb).elapsed =
      (runLoop tmo tr 0 [] tr.events).elapsed := by
  cases hx : (runLoop tmo tr 0 [] tr.events).exit <;>
    simp [download_from_spotify_url, hx] <;>
    first
      | (cases fb.scrapedTitle <;> simp)
      | (rename_i c; by_cases hc : c = 0 <;> simp [hc])

lemma dfsu_killed (u d : String) (tmo : Nat) (tr : ProcTrace) (fb : FallbackEnv) :
    (download_from_spotify_url u d tmo tr fb).killed =
      (runLoop tmo tr 0 [] tr.events).killed := by
  cases hx : (runLoop tmo tr 0 [] tr.events).exit <;>
    simp [download_from_spotify_url, hx] <;>
    first
      | (cases fb.scrapedTitle <;> simp)
      | (rename_i c; by_cases hc : c = 0 <;> simp [hc])

/-- `kill()` is called exactly on the timeout and rate-limit exits. -/
lemma runLoop_killed_iff (tmo : Nat) (tr : ProcTrace) :
    ∀ (evs : List Ev) (e0 : Nat) (acc : List String),
      (runLoop tmo tr e0 acc evs).killed = true ↔
        ((runLoop tmo tr e0 acc evs).exit = ExitKind.timedOut ∨
         (runLoop tmo tr e0 acc evs).exit = ExitKind.rateLimited) := by
  intro evs
  induction evs with
  | nil =>
    intro e0 acc
    by_cases h : tmo < e0 <;> simp [runLoop, h]
  | cons e rest ih =>
    intro e0 acc
    cases e with
    | line dt s =>
      by_cases h : tmo < e0
      · simp [runLoop, h]
      · by_cases hr : isRateLimit (stripStr s)
        · simp [runLoop, h, hr]
        · simpa [runLoop, h, hr] using ih (e0 + dt) (acc ++ [stripStr s])
    | exc dt =>
      by_cases h : tmo < e0 <;> simp [runLoop, h]

/-- The loop's elapsed clock on exit is at most the budget plus one
read slice, provided every single blocking read returns within
`delta` seconds. -/
lemma runLoop_elapsed_le (tmo delta : Nat) (tr : ProcTrace)
    (hexit : tr.exitDt ≤ delta) :
    ∀ (evs : List Ev) (e0 : Nat) (acc : List String),
      (∀ e ∈ evs, evDt e ≤ delta) → e0 ≤ tmo + delta →
      (runLoop tmo tr e0 acc evs).elapsed ≤ tmo + delta := by
  intro evs
  induction evs with
  | nil =>
    intro e0 acc _ he0
    by_cases h : tmo < e0
    · simpa [runLoop, h] using he0
    · simp only [runLoop, if_neg h]
      omega
  | cons e rest ih =>
    intro e0 acc hev he0
    cases e with
    | line dt s =>
      have hdt : dt ≤ delta := by
        have := hev (Ev.line dt s) (by simp)
        simpa [evDt] using this
      by_cases h : tmo < e0
      · simpa [runLoop, h] using he0
      · by_cases hr : isRateLimit (stripStr s)
        · simp only [runLoop, if_neg h, hr, if_pos]
          omega
        · simp only [runLoop, if_neg h, hr]
          exact ih (e0 + dt) (acc ++ [stripStr s])
            (fun e he => hev e (by simp [he])) (by omega)
    | exc dt =>
      have hdt : dt ≤ delta := by
        have := hev (Ev.exc dt) (by simp)
        simpa [evDt] using this
      by_cases h : tmo < e0
      · simpa [runLoop, h] using he0
      · simp only [runLoop, if_neg h]
        omega

/-- C8: for every non-empty candidate list the selected thumbnail is the
candidate of maximal width×height (missing dimensions count 0), the first
one in input order on ties; on the spec's example `(100,100), (500,500),
(200,900)` the `(500,500)` candidate is chosen. -/
theorem best_thumbnail_is_first_max_area :
    (∀ (t : ThumbCand) (ts : List ThumbCand),
      ∃ l1 l2, t :: ts = l1 ++ bestThumb t ts :: l2 ∧
        (∀ x ∈ l1, area x < area (bestThumb t ts)) ∧
        (∀ x ∈ l2, area x ≤ area (bestThumb t ts))) ∧
    bestThumb ⟨some "a", some 100, some 100⟩
      [⟨some "b", some 500, some 500⟩, ⟨some "c", some 200, some 900⟩] =
      ⟨some "b", some 500, some 500⟩ :=
  ⟨fun t ts => bestThumb_first_argmax ts t, by decide⟩

/-- C9: filename sanitization replaces exactly the characters of the
class `<>:"/\|?*` with an underscore and keeps every other character; in
particular the spec's example maps as stated. -/
theorem sanitize_replaces_illegal_chars :
    sanitize "AC/DC - T.N.T?" = "AC_DC - T.N.T_" ∧
    ∀ s : String,
      (sanitize s).data = s.data.map (fun c => if illegalChar c then '_' else c) :=
  ⟨by decide, fun s => rfl⟩

/-- C10: the caller-observable return value of `download_from_spotify_url`
depends on the path taken: without a rate limit it is a Python bool,
`True` exactly on natural exit code 0 and `False` otherwise (timeout and
supervisor exception included); when a rate limit triggered the fallback
it is the fallback pipeline's value — the metadata dict on success,
`None` on failure — and a rate limit with no derivable title yields
`False`. -/
theorem result_shape_depends_on_path (u d : String) (tmo : Nat)
    (tr : ProcTrace) (fb : FallbackEnv) :
    (download_from_spotify_url u d tmo tr fb).result =
      match (runLoop tmo tr 0 [] tr.events).exit with
      | ExitKind.timedOut => PyResult.bool false
      | ExitKind.excRaised => PyResult.bool false
      | ExitKind.rateLimited =>
          (match fb.scrapedTitle with
           | some t => PyResult.meta (download_song_with_metadata t d fb.metaEnv).1
           | none => PyResult.bool false)
      | ExitKind.naturalExit c => PyResult.bool (decide (c = 0)) := by
  cases hx : (runLoop tmo tr 0 [] tr.events).exit <;>
    simp [download_from_spotify_url, hx] <;>
    first
      | (cases fb.scrapedTitle <;> simp)
      | (rename_i c; by_cases hc : c = 0 <;> simp [hc])

/-- C2 (amended): on the success, timeout and rate-limit exit paths the
spawned process is terminated (killed or naturally exited) before
`download_from_spotify_url` returns; the supervisor-side exception path
is excluded, because its handler returns without touching the process. -/
theorem process_terminated_on_non_exception_paths (u d : String) (tmo : Nat)
    (tr : ProcTrace) (fb : FallbackEnv)
    (h : (runLoop tmo tr 0 [] tr.events).exit ≠ ExitKind.excRaised) :
    (download_from_spotify_url u d tmo tr fb).killed = true ∨
    (download_from_spotify_url u d tmo tr fb).exitedNaturally = true := by
  rw [dfsu_killed]
  cases hx : (runLoop tmo tr 0 [] tr.events).exit with
  | timedOut =>
    exact Or.inl ((runLoop_killed_iff tmo tr tr.events 0 []).mpr (Or.inl hx))
  | rateLimited =>
    exact Or.inl ((runLoop_killed_iff tmo tr tr.events 0 []).mpr (Or.inr hx))
  | excRaised => exact absurd hx h
  | naturalExit c =>
    right
    cases hc : decide (c = 0) <;>
      simp [download_from_spotify_url, hx, of_decide_eq_true, of_decide_eq_false,
            (by simpa using hc : _)]

def mEnvNone : MetaEnv :=
  { searchExit := 0, searchJson := none, downloadExit := 0,
    audioFileProduced := false, coverFetchOk := false }

def fbNone : FallbackEnv := ⟨none, mEnvNone⟩

/-- A run in which a supervisor-side exception is raised 5 seconds into
the supervision loop, after the process was spawned. -/
def trExc : ProcTrace := ⟨[Ev.exc 5], 1, 0⟩

/-- C2 (counterexample): on the supervisor-side exception path the
handler of line 174 returns a failure result without killing the spawned
process and without its having exited — the process is left running. -/
theorem exception_path_leaves_process_running :
    (download_from_spotify_url "https://open.spotify.com/track/x" "downloads"
        120 trExc fbNone).killed = false ∧
    (download_from_spotify_url "https://open.spotify.com/track/x" "downloads"
        120 trExc fbNone).exitedNaturally = false ∧
    (download_from_spotify_url "https://open.spotify.com/track/x" "downloads"
        120 trExc fbNone).result = PyResult.bool false :=
  ⟨rfl, rfl, rfl⟩

/-- C2 witness: a natural-success run, with the hypothesis of the
amended theorem discharged concretely. -/
theorem process_terminated_on_non_exception_paths_witness :
    (download_from_spotify_url "https://open.spotify.com/track/x" "downloads"
        120 ⟨[Ev.line 1 "Downloading"], 1, 0⟩ fbNone).killed = true ∨
    (download_from_spotify_url "https://open.spotify.com/track/x" "downloads"
        120 ⟨[Ev.line 1 "Downloading"], 1, 0⟩ fbNone).exitedNaturally = true :=
  process_terminated_on_non_exception_paths _ _ 120 _ fbNone (by decide)

/-- C3 (amended): if every single blocking `readline` returns within
`delta` seconds (and so does the final EOF read), the supervisor returns
with elapsed time at most `timeout + delta`.  Without such a per-read
bound no bound holds, because the timeout check cannot run while
`readline` blocks. -/
theorem elapsed_bounded_given_read_granularity (u d : String)
    (tmo delta : Nat) (tr : ProcTrace) (fb : FallbackEnv)
    (hev : ∀ e ∈ tr.events, evDt e ≤ delta) (hexit : tr.exitDt ≤ delta) :
    (download_from_spotify_url u d tmo tr fb).elapsed ≤ tmo + delta := by
  rw [dfsu_elapsed]
  exact runLoop_elapsed_le tmo delta tr hexit tr.events 0 [] hev (by omega)

/-- A backend that stays silent for 1000000 seconds before its first
output line: the blocking `readline` starves the timeout check the whole
time. -/
def trSilent : ProcTrace := ⟨[Ev.line 1000000 "Processing query"], 1, 0⟩

/-- C3 (counterexample): with the default 120 s budget the supervisor
only returns after 1000000 s — far beyond any
primary+secondary+fetch-timeout budget (120+120+10) — because the
elapsed-time check is starved for the full duration of one blocking
read. -/
theorem blocking_read_starves_timeout_check :
    (download_from_spotify_url "https://open.spotify.com/track/x" "downloads"
        120 trSilent fbNone).elapsed = 1000000 ∧
    120 + 120 + 10 < 1000000 :=
  ⟨rfl, by norm_num⟩

/-- C3 witness: with every read bounded by 60 s and a 120 s budget the
run returns within 180 s. -/
theorem elapsed_bounded_given_read_granularity_witness :
    (download_from_spotify_url "https://open.spotify.com/track/x" "downloads"
        120 ⟨[Ev.line 50 "Downloading", Ev.line 60 "Still going"], 10, 0⟩
        fbNone).elapsed ≤ 120 + 60 :=
  elapsed_bounded_given_read_granularity _ _ 120 60 _ fbNone (by decide) (by decide)

/-- The fallback pipeline issues no primary-backend command and exactly
one metadata-only search command, whatever its environment. -/
lemma dswm_cmds_counts (q d : String) (env : MetaEnv) :
    ((download_song_with_metadata q d env).2.countP isSpotdlCmd = 0) ∧
    ((download_song_with_metadata q d env).2.countP isMetaCmd = 1) := by
  simp only [download_song_with_metadata]
  repeat' split
  all_goals
    simp [List.countP_cons, List.countP_nil, List.countP_append,
      isSpotdlCmd, isMetaCmd]

/-- C4: when the supervision loop ends rate-limited, the returned value
is exactly the single fallback run's value when a page title was
scraped, and a plain failure when no title could be derived; the
command trace holds exactly one primary-backend invocation and at most
one metadata search, so exactly one fallback attempt is made and its
outcome is terminal. -/
theorem rate_limited_triggers_single_fallback (u d : String) (tmo : Nat)
    (tr : ProcTrace) (fb : FallbackEnv)
    (h : (runLoop tmo tr 0 [] tr.events).exit = ExitKind.rateLimited) :
    (download_from_spotify_url u d tmo tr fb).result =
      (match fb.scrapedTitle with
       | some t => PyResult.meta (download_song_with_metadata t d fb.metaEnv).1
       | none => PyResult.bool false) ∧
    (download_from_spotify_url u d tmo tr fb).fallbackRan =
      fb.scrapedTitle.isSome ∧
    (download_from_spotify_url u d tmo tr fb).cmds.countP isSpotdlCmd = 1 ∧
    (download_from_spotify_url u d tmo tr fb).cmds.countP isMetaCmd ≤ 1 := by
  cases ht : fb.scrapedTitle with
  | none =>
    simp [download_from_spotify_url, h, ht, List.countP_cons, List.countP_nil,
      isSpotdlCmd, isMetaCmd]
  | some t =>
    have hc := dswm_cmds_counts t d fb.metaEnv
    simp [download_from_spotify_url, h, ht, List.countP_cons,
      isSpotdlCmd, isMetaCmd, hc.1, hc.2]

def infoC4 : SearchInfo :=
  { title := some "Shape of You", artist := some "Ed Sheeran",
    uploader := none, album := some "Divide", duration := some 233,
    webpage_url := some "https://www.youtube.com/watch?v=abc",
    thumbnail := some "https://img.example/a.jpg",
    thumbnails := [⟨some "https://img.example/b.jpg", some 640, some 480⟩] }

def envC4 : MetaEnv :=
  { searchExit := 0, searchJson := some infoC4, downloadExit := 0,
    audioFileProduced := true, coverFetchOk := true }

def fbC4 : FallbackEnv := ⟨some "Shape of You", envC4⟩

def trC4 : ProcTrace :=
  ⟨[Ev.line 1 "Looking up song", Ev.line 1 "Error: rate limit exceeded"], 1, 0⟩

/-- C4 witness: a concrete rate-limited run with a scraped title. -/
theorem rate_limited_triggers_single_fallback_witness :
    (download_from_spotify_url "https://open.spotify.com/track/x" "downloads"
        120 trC4 fbC4).result =
      (match fbC4.scrapedTitle with
       | some t =>
          PyResult.meta (download_song_with_metadata t "downloads" fbC4.metaEnv).1
       | none => PyResult.bool false) ∧
    (download_from_spotify_url "https://open.spotify.com/track/x" "downloads"
        120 trC4 fbC4).fallbackRan = fbC4.scrapedTitle.isSome ∧
    (download_from_spotify_url "https://open.spotify.com/track/x" "downloads"
        120 trC4 fbC4).cmds.countP isSpotdlCmd = 1 ∧
    (download_from_spotify_url "https://open.spotify.com/track/x" "downloads"
        120 trC4 fbC4).cmds.countP isMetaCmd ≤ 1 :=
  rate_limited_triggers_single_fallback _ _ 120 trC4 fbC4 (by decide)

def sumDt : List (Nat × String) → Nat
  | [] => 0
  | p :: rest => p.1 + sumDt rest

lemma runLoop_first_match_aux (tmo : Nat) (tr : ProcTrace) (dt : Nat)
    (s : String) (post : List Ev) (hs : isRateLimit (stripStr s) = true) :
    ∀ (pre : List (Nat × String)) (e0 : Nat) (acc : List String),
      (∀ p ∈ pre, isRateLimit (stripStr p.2) = false) →
      e0 + sumDt pre ≤ tmo →
      runLoop tmo tr e0 acc
          (pre.map (fun p => Ev.line p.1 p.2) ++ Ev.line dt s :: post) =
        ⟨ExitKind.rateLimited, e0 + sumDt pre + dt,
          acc ++ pre.map (fun p => stripStr p.2) ++ [stripStr s], true⟩ := by
  intro pre
  induction pre with
  | nil =>
    intro e0 acc _ hsum
    have h : ¬ tmo < e0 := by simp [sumDt] at hsum; omega
    simp [runLoop, h, hs, sumDt]
  | cons p rest ih =>
    intro e0 acc hpre hsum
    have h : ¬ tmo < e0 := by
      have : sumDt (p :: rest) = p.1 + sumDt rest := rfl
      omega
    have hp : isRateLimit (stripStr p.2) = false := hpre p (by simp)
    simp only [List.map_cons, List.cons_append, runLoop, if_neg h, hp,
      Bool.false_eq_true, if_false, List.append_eq]
    rw [ih (e0 + p.1) (acc ++ [stripStr p.2])
      (fun q hq => hpre q (by simp [hq]))
      (by have : sumDt (p :: rest) = p.1 + sumDt rest := rfl; omega)]
    have hsum2 : sumDt (p :: rest) = p.1 + sumDt rest := rfl
    simp only [LoopResult.mk.injEq, hsum2]
    refine ⟨?_, ?_, ?_, ?_⟩ <;> first | trivial | omega | simp

/-- C6: a backend line signals rate limiting exactly when `isRateLimit`
holds of it (lowercased text contains both "rate" and "limit"); on the
first matching line — after any run of non-matching lines whose reads
fit in the budget — the supervisor kills the process immediately and
returns the rate-limited outcome carrying the stripped lines so far,
including the matching one, without consuming any further process
events (no waiting for natural exit: the result does not depend on
`post` or on the process's natural exit information). -/
theorem first_rate_limit_line_kills_process (tmo dt : Nat) (tr : ProcTrace)
    (s : String) (pre : List (Nat × String)) (post : List Ev)
    (hev : tr.events = pre.map (fun p => Ev.line p.1 p.2) ++ Ev.line dt s :: post)
    (hpre : ∀ p ∈ pre, isRateLimit (stripStr p.2) = false)
    (hsum : sumDt pre ≤ tmo)
    (hs : isRateLimit (stripStr s) = true) :
    runLoop tmo tr 0 [] tr.events =
      ⟨ExitKind.rateLimited, sumDt pre + dt,
        pre.map (fun p => stripStr p.2) ++ [stripStr s], true⟩ := by
  rw [hev]
  have := runLoop_first_match_aux tmo tr dt s post hs pre 0 [] hpre (by omega)
  simpa using this

/-- C6 witness: the spec's scenario — rate-limited on the third output
line; the two earlier lines are captured together with the matching
line, the process is killed with the rest of the trace unread. -/
theorem first_rate_limit_line_kills_process_witness :
    runLoop 120
      ⟨[Ev.line 1 "Searching", Ev.line 1 "Found match",
        Ev.line 1 "Error: rate limit exceeded"], 1, 0⟩ 0 []
      [Ev.line 1 "Searching", Ev.line 1 "Found match",
        Ev.line 1 "Error: rate limit exceeded"] =
      ⟨ExitKind.rateLimited, 3,
        ["Searching", "Found match", "Error: rate limit exceeded"], true⟩ :=
  first_rate_limit_line_kills_process 120 1 _ "Error: rate limit exceeded"
    [(1, "Searching"), (1, "Found match")] [] rfl (by decide) (by decide)
    (by decide)

/-- A string occurs as a substring of any concatenation that embeds it. -/
lemma containsSub_middle (a n b : String) : containsSub n (a ++ n ++ b) = true := by
  unfold containsSub
  apply List.any_eq_true.mpr
  refine ⟨n.data ++ b.data, ?_, ?_⟩
  · rw [List.mem_tails]
    have hd : (a ++ n ++ b).data = a.data ++ (n.data ++ b.data) := by
      rw [String.data_append, String.data_append, List.append_assoc]
    rw [hd]
    exact List.suffix_append _ _
  · rw [List.isPrefixOf_iff_prefix]
    exact List.prefix_append _ _

/-- C7: when the supervision loop ends by timeout or by natural exit
with a nonzero code, the request yields a failure result, no fallback is
attempted, and the diagnostics are exactly the captured output (plus the
kill code); in the timeout case they additionally carry the timeout
message, which mentions the elapsed time. -/
theorem timeout_or_failed_gives_up_without_fallback (u d : String) (tmo : Nat)
    (tr : ProcTrace) (fb : FallbackEnv)
    (h : (runLoop tmo tr 0 [] tr.events).exit = ExitKind.timedOut ∨
         ∃ c, (runLoop tmo tr 0 [] tr.events).exit = ExitKind.naturalExit c ∧
              c ≠ 0) :
    (download_from_spotify_url u d tmo tr fb).result = PyResult.bool false ∧
    (download_from_spotify_url u d tmo tr fb).fallbackRan = false ∧
    (download_from_spotify_url u d tmo tr fb).diagnostics =
      (match (runLoop tmo tr 0 [] tr.events).exit with
        | ExitKind.timedOut =>
            [timeoutMsg (runLoop tmo tr 0 [] tr.events).elapsed]
        | _ => []) ++
      [exitCodeMsg
         (match (runLoop tmo tr 0 [] tr.events).exit with
           | ExitKind.naturalExit c => c
           | _ => -9),
       fullOutputMsg (runLoop tmo tr 0 [] tr.events).lines] ∧
    containsSub (toString (runLoop tmo tr 0 [] tr.events).elapsed)
      (timeoutMsg (runLoop tmo tr 0 [] tr.events).elapsed) = true := by
  have hcs := containsSub_middle "TIMEOUT after "
    (toString (runLoop tmo tr 0 [] tr.events).elapsed) "s! Killed process."
  rcases h with h | ⟨c, h, hc⟩
  · refine ⟨?_, ?_, ?_, hcs⟩ <;>
      simp [download_from_spotify_url, h, timeoutMsg]
  · refine ⟨?_, ?_, ?_, hcs⟩ <;>
      simp [download_from_spotify_url, h, hc]

/-- A run whose primary process stays busy past the 2-second budget. -/
def trTimeout : ProcTrace := ⟨[Ev.line 5 "Working on it"], 1, 0⟩

/-- C7 witness: a concrete timed-out run. -/
theorem timeout_or_failed_gives_up_without_fallback_witness :
    (download_from_spotify_url "https://open.spotify.com/track/x" "downloads"
        2 trTimeout fbNone).result = PyResult.bool false ∧
    (download_from_spotify_url "https://open.spotify.com/track/x" "downloads"
        2 trTimeout fbNone).fallbackRan = false ∧
    (download_from_spotify_url "https://open.spotify.com/track/x" "downloads"
        2 trTimeout fbNone).diagnostics =
      (match (runLoop 2 trTimeout 0 [] trTimeout.events).exit with
        | ExitKind.timedOut =>
            [timeoutMsg (runLoop 2 trTimeout 0 [] trTimeout.events).elapsed]
        | _ => []) ++
      [exitCodeMsg
         (match (runLoop 2 trTimeout 0 [] trTimeout.events).exit with
           | ExitKind.naturalExit c => c
           | _ => -9),
       fullOutputMsg (runLoop 2 trTimeout 0 [] trTimeout.events).lines] ∧
    containsSub (toString (runLoop 2 trTimeout 0 [] trTimeout.events).elapsed)
      (timeoutMsg (runLoop 2 trTimeout 0 [] trTimeout.events).elapsed) = true :=
  timeout_or_failed_gives_up_without_fallback _ _ 2 trTimeout fbNone
    (Or.inl (by decide))

/-- C5 (counterexample): `main` routes the free-text query of the spec's
own scenario to `download_song`, whose only issued command is the audio
search download — no metadata-only call precedes it, and the destination
filename is delegated to the backend's output template rather than
derived from resolved metadata. -/
theorem direct_free_text_path_skips_metadata_resolution :
    classifyQuery "Imagine Dragons Believer" = Route.search ∧
    (download_song "Imagine Dragons Believer" "downloads" ⟨0, false⟩).2 =
      [Cmd.audioSearch "Imagine Dragons Believer"
        "downloads/%(artist)s - %(title)s.%(ext)s"] ∧
    metadataResolvedFirst
      (download_song "Imagine Dragons Believer" "downloads" ⟨0, false⟩).2 =
      false := by
  refine ⟨by decide, rfl, by decide⟩

/-- C5 (amended): on the `download_song_with_metadata` path — reached
only as the rate-limit fallback — metadata is resolved by the
metadata-only search call before the audio download command is issued,
and the destination filename is the sanitized "artist - title" of the
resolved metadata. -/
theorem metadata_first_on_fallback_path (q d : String) (env : MetaEnv)
    (info : SearchInfo) (wu : String)
    (h0 : env.searchExit = 0) (h1 : env.searchJson = some info)
    (h2 : info.webpage_url = some wu) :
    metadataResolvedFirst (download_song_with_metadata q d env).2 = true ∧
    ∃ m, (download_song_with_metadata q d env).1 = some m ∧
      m.file_path =
        d ++ "/" ++
          sanitize (resolvedArtist info ++ " - " ++ info.title.getD "Unknown") ++
          ".mp3" := by
  simp only [download_song_with_metadata, h0, h1, h2, ne_eq, not_true_eq_false,
    if_false, ite_false]
  constructor
  · simp [metadataResolvedFirst, isAudioCmd, isMetaCmd, List.takeWhile]
  · exact ⟨_, rfl, rfl⟩

def infoC5 : SearchInfo :=
  { title := some "Believer", artist := some "Imagine Dragons",
    uploader := none, album := none, duration := some 204,
    webpage_url := some "https://www.youtube.com/watch?v=xyz",
    thumbnail := none, thumbnails := [] }

def envC5 : MetaEnv :=
  { searchExit := 0, searchJson := some infoC5, downloadExit := 0,
    audioFileProduced := true, coverFetchOk := true }

/-- C5 witness: the amended claim at a concrete environment. -/
theorem metadata_first_on_fallback_path_witness :
    metadataResolvedFirst
      (download_song_with_metadata "Imagine Dragons Believer" "downloads"
        envC5).2 = true ∧
    ∃ m, (download_song_with_metadata "Imagine Dragons Believer" "downloads"
        envC5).1 = some m ∧
      m.file_path =
        "downloads" ++ "/" ++
          sanitize (resolvedArtist infoC5 ++ " - " ++
            infoC5.title.getD "Unknown") ++ ".mp3" :=
  metadata_first_on_fallback_path "Imagine Dragons Believer" "downloads"
    envC5 infoC5 "https://www.youtube.com/watch?v=xyz" rfl rfl rfl

def infoC1 : SearchInfo :=
  { title := some "T.N.T", artist := some "AC/DC", uploader := none,
    album := none, duration := some 210,
    webpage_url := some "https://www.youtube.com/watch?v=abc",
    thumbnail := none, thumbnails := [] }

/-- An environment in which the metadata search succeeds but the audio
download command exits with code 1 and produces no file on disk. -/
def envC1 : MetaEnv :=
  { searchExit := 0, searchJson := some infoC1, downloadExit := 1,
    audioFileProduced := false, coverFetchOk := false }

/-- C1 (code bug): `download_song_with_metadata` discards the result of
the audio download command (line 318) and unconditionally reports
success with `file_path` set — here the download command failed with
exit code 1 and no audio file exists on disk, yet the returned value is
a success record carrying a file path. -/
theorem success_reported_despite_failed_download :
    envC1.downloadExit = 1 ∧ envC1.audioFileProduced = false ∧
    ∃ m, (download_song_with_metadata "acdc tnt" "downloads" envC1).1 = some m ∧
      m.file_path = "downloads/AC_DC - T.N.T.mp3" := by
  refine ⟨rfl, rfl, ⟨_, rfl, by decide⟩⟩
